import Mathlib

/-!
Shallow embedding of `src/grp_krml_group6/data/sets.py` (a module of
data-science helper functions: train/validation/test splitting of a
dataframe, persistence of array sets, missing-value cleaning, and plot
dispatching), together with theorems checking the module's specification
against the code.

Dataframes are modelled column-major: a `Table` carries an explicit row
count (pandas keeps the row index even for a frame with no columns) and a
list of named columns.  Python positional slicing (`l[s:e]` with possibly
negative bounds and no step) is modelled by `pySlice`.  Fallible calls
(pandas `KeyError`, sklearn validation errors) are modelled with
`Option`/`Except`.
-/

namespace GrpKrml

variable {α : Type}

/-- Normalisation of a Python slice bound: a negative index counts from the
end of the sequence and is clamped below at 0; a non-negative index is
clamped above at the length. -/
def pyIndex (n : Nat) (i : Int) : Nat :=
  if i < 0 then ((n : Int) + i).toNat else min i.toNat n

/-- Python positional slice `l[s:e]` (step 1): the elements with positions
in `[pyIndex n s, pyIndex n e)`. -/
def pySlice (s e : Int) (l : List α) : List α :=
  (l.drop (pyIndex l.length s)).take (pyIndex l.length e - pyIndex l.length s)

/-- A pandas dataframe, column-major: an explicit row count plus named
columns.  (pandas retains the row count in the index even when every
column has been removed, hence the separate `nrows` field.) -/
structure Table (α : Type) where
  nrows : Nat
  cols : List (String × List α)
deriving DecidableEq

/-- Well-formedness: every column holds exactly `nrows` values. -/
def Table.WF (t : Table α) : Prop :=
  ∀ p ∈ t.cols, p.2.length = t.nrows

instance (t : Table α) : Decidable t.WF := List.decidableBAll _ t.cols

/-- The values of the (first) column named `c`, when present. -/
def getCol (t : Table α) (c : String) : Option (List α) :=
  (t.cols.find? (fun p => p.1 == c)).map (fun p => p.2)

/-- `pop_target` (sets.py lines 19-21): copy the frame, `pop` the target
column out of the copy, and return (features frame, target column).
pandas `pop` removes the named column and returns its values; a missing
column raises `KeyError`, modelled as `none`.  The caller's frame is
untouched because the code copies first (see `pop_target_run`). -/
def pop_target (df : Table α) (target_col : String) : Option (Table α × List α) :=
  match df.cols.find? (fun p => p.1 == target_col) with
  | none => none
  | some p => some (⟨df.nrows, df.cols.filter (fun q => !(q.1 == target_col))⟩, p.2)

/-- Row-slicing a dataframe, `df[s:e]`: every column is sliced positionally
and the row count becomes the size of the slice interval. -/
def sliceTable (s e : Int) (t : Table α) : Table α :=
  ⟨pyIndex t.nrows e - pyIndex t.nrows s,
   t.cols.map (fun p => (p.1, pySlice s e p.2))⟩

/-- `subset_x_y` (sets.py line 116): `features[start:end], target[start:end]`
— the feature rows first, the target rows second, over the same range. -/
def subset_x_y (target : List α) (features : Table α) (start_index end_index : Int) :
    Table α × List α :=
  (sliceTable start_index end_index features, pySlice start_index end_index target)

/-- One component of the tuple returned by `split_sets_by_time`: either a
feature frame or a target column. -/
inductive SetPart (α : Type) : Type
  | X (t : Table α)
  | y (s : List α)
deriving DecidableEq

/-- `split_sets_by_time` (sets.py lines 118-154): copy the frame, pop the
target, set `cutoff = int(len(df_copy) / 5)`, slice train/validation/test
with `subset_x_y`, and return the tuple
`X_train, y_train, X_val, y_val, X_test,` — five components; the computed
`y_test` is dropped by the return statement.  The `test_ratio` parameter
is never read.  A missing target column raises (`none`). -/
def split_sets_by_time (df : Table α) (target_col : String) (test_ratio : ℚ) :
    Option (List (SetPart α)) :=
  match pop_target df target_col with
  | none => none
  | some (df_copy, target) =>
    let cutoff : Nat := df_copy.nrows / 5
    let train := subset_x_y target df_copy 0 (-((cutoff : Int) * 2))
    let val := subset_x_y target df_copy (-((cutoff : Int) * 2)) (-(cutoff : Int))
    let test := subset_x_y target df_copy (-(cutoff : Int)) (df_copy.nrows : Int)
    some [SetPart.X train.1, SetPart.y train.2,
          SetPart.X val.1, SetPart.y val.2,
          SetPart.X test.1]

/-- The row range `[a, b)` of a table, as the specification describes the
splits: plain (non-negative, unclamped) row positions. -/
def rowRange (a b : Nat) (t : Table α) : Table α :=
  ⟨b - a, t.cols.map (fun p => (p.1, (p.2.drop a).take (b - a)))⟩

/-- Vertical (row-wise) concatenation of two tables with the same column
layout. -/
def vertConcat (t u : Table α) : Table α :=
  ⟨t.nrows + u.nrows, List.zipWith (fun p q => (p.1, p.2 ++ q.2)) t.cols u.cols⟩

/-- A table with the same columns as `t` but zero rows. -/
def emptyRows (t : Table α) : Table α :=
  ⟨0, t.cols.map (fun p => (p.1, ([] : List α)))⟩

/-- Non-mutation view of `pop_target`: the code copies the frame
(`df_copy = df.copy()`, line 19) and pops the column out of the copy only,
so after the call the caller-supplied frame is exactly the input.  The
first component is the return value, the second the caller's frame after
the call. -/
def pop_target_run (df : Table α) (target_col : String) :
    Option (Table α × List α) × Table α :=
  (pop_target df target_col, df)

/-! ## Set persistence (`save_sets` / `load_sets`, sets.py lines 23-92)

The filesystem is modelled as a map from file names to optionally-present
array contents; `np.save(f, a)` writes the key `f ++ ".npy"` (numpy
appends the extension). -/

/-- A directory tree: file name to contents, `none` when absent. -/
def FS (α : Type) : Type := String → Option (List α)

/-- `np.save(fname, arr)`: write `arr` at `fname ++ ".npy"`. -/
def np_save (fs : FS α) (fname : String) (arr : List α) : FS α :=
  fun k => if k = fname ++ ".npy" then some arr else fs k

/-- One conditional save: `if arr is not None: np.save(fname, arr)`. -/
def writeOpt (fs : FS α) (fname : String) (arr : Option (List α)) : FS α :=
  match arr with
  | none => fs
  | some a => np_save fs fname a

/-- `save_sets` (sets.py lines 23-57): write each non-`None` array under its
fixed basename inside `path`, in the source order
X_train, X_val, X_test, y_train, y_val, y_test. -/
def save_sets (X_train y_train X_val y_val X_test y_test : Option (List α))
    (path : String) (fs : FS α) : FS α :=
  let fs1 := writeOpt fs (path ++ "X_train") X_train
  let fs2 := writeOpt fs1 (path ++ "X_val") X_val
  let fs3 := writeOpt fs2 (path ++ "X_test") X_test
  let fs4 := writeOpt fs3 (path ++ "y_train") y_train
  let fs5 := writeOpt fs4 (path ++ "y_val") y_val
  writeOpt fs5 (path ++ "y_test") y_test

/-- `load_sets` (sets.py lines 59-92): for each of the six fixed file
names, return the contents when the file exists and `None` otherwise; the
return order is X_train, y_train, X_val, y_val, X_test, y_test (line 92). -/
def load_sets (path : String) (fs : FS α) :
    Option (List α) × Option (List α) × Option (List α) ×
    Option (List α) × Option (List α) × Option (List α) :=
  (fs (path ++ "X_train.npy"), fs (path ++ "y_train.npy"),
   fs (path ++ "X_val.npy"), fs (path ++ "y_val.npy"),
   fs (path ++ "X_test.npy"), fs (path ++ "y_test.npy"))

/-! ## Plot dispatch (`distribution_plot` / `categorical_plot`,
sets.py lines 214-307)

Only the control flow is modelled: which `kind` values reach a rendering
branch (the seaborn draw call is a black box, represented by the title the
branch sets) and which fall through to the `raise ValueError`.  The error
message literals are transcribed without their quoting punctuation. -/

inductive PlotOutcome : Type
  | rendered (title : String)
  | raised (msg : String)
deriving DecidableEq

/-- The kind values named in the `distribution_plot` error message
(sets.py line 264): the message omits `piechart` and `countplot` even
though those branches exist. -/
def distribution_plot_message_kinds : List String :=
  ["hist", "kdeplot", "boxplot", "violinplot"]

/-- The kind values named in the `categorical_plot` error message
(sets.py line 307): the message includes `countplot` even though no such
branch exists in the function. -/
def categorical_plot_message_kinds : List String :=
  ["barplot", "countplot", "pointplot", "stripplot", "swarmplot"]

/-- The error-message text, assembled from the kinds it names. -/
def invalidKindMessage (kinds : List String) : String :=
  "Invalid kind parameter. Supported types are " ++ String.intercalate ", " kinds ++ "."

/-- `distribution_plot` (sets.py lines 214-264): dispatch on `kind` over
hist, kdeplot, boxplot, violinplot, piechart, countplot; anything else
raises with a message naming only the first four. -/
def distribution_plot (x : String) (kind : String) (kde : Bool) : PlotOutcome :=
  if kind = "hist" then .rendered ("Histogram of " ++ x)
  else if kind = "kdeplot" then .rendered ("KDE Plot of " ++ x)
  else if kind = "boxplot" then .rendered ("Boxplot of " ++ x)
  else if kind = "violinplot" then .rendered ("Violin Plot of " ++ x)
  else if kind = "piechart" then .rendered ("Pie Chart of " ++ x)
  else if kind = "countplot" then .rendered ("Countplot of " ++ x)
  else .raised (invalidKindMessage distribution_plot_message_kinds)

/-- `categorical_plot` (sets.py lines 267-307): dispatch on `kind` over
barplot, pointplot, stripplot, swarmplot; anything else — including
`countplot`, which the docstring and the error message both advertise —
raises with a message naming five kinds. -/
def categorical_plot (x : String) (y : Option String) (kind : String)
    (hue : Option String) : PlotOutcome :=
  if kind = "barplot" then .rendered ("Barplot of " ++ x)
  else if kind = "pointplot" then .rendered ("Point Plot of " ++ x)
  else if kind = "stripplot" then .rendered ("Stripplot of " ++ x)
  else if kind = "swarmplot" then .rendered ("Swarmplot of " ++ x)
  else .raised (invalidKindMessage categorical_plot_message_kinds)

/-- The kind values for which `distribution_plot` has a rendering branch. -/
def distribution_plot_supported : List String :=
  ["hist", "kdeplot", "boxplot", "violinplot", "piechart", "countplot"]

/-- The kind values for which `categorical_plot` has a rendering branch. -/
def categorical_plot_supported : List String :=
  ["barplot", "pointplot", "stripplot", "swarmplot"]

/-! ## Generic cleaner (`data_cleaning`, sets.py lines 156-212)

Cell values of a heterogeneous frame: a rational number, a string, or a
missing value (NaN).  Each column carries a pandas dtype tag: `numeric`
(float64/int64), `object`, or anything else.  The sklearn `SimpleImputer`
is modelled by its documented behaviour for the strategies the module
uses: `mean` and `median` require all-numeric observed values;
`most_frequent` takes the most frequent observed value, smallest first on
ties.  A column whose values are all missing is dropped by the imputer,
which makes the enclosing frame assignment fail — modelled as an error —
and sklearn also rejects an empty column selection.

The code mutates the caller's frame in place (`df[cols] = ...` with no
copy) and finally returns that same frame, so `data_cleaning` here
returns the pair (caller's frame after the call, error if one was
raised); on a run without error the first component is also the returned
cleaned frame. -/

inductive CVal : Type
  | num (q : ℚ)
  | str (s : String)
  | na
deriving DecidableEq

inductive Dtype : Type
  | numeric
  | object
  | other
deriving DecidableEq

/-- A named, dtype-tagged column of a frame being cleaned. -/
structure CCol : Type where
  name : String
  dtype : Dtype
  values : List CVal
deriving DecidableEq

/-- A frame being cleaned, column-major. -/
abbrev CTable : Type := List CCol

def CVal.isNA : CVal → Bool
  | .na => true
  | _ => false

def CVal.isStr : CVal → Bool
  | .str _ => true
  | _ => false

/-- Dtype of a freshly assigned column, as pandas infers it: any string
makes the column `object`, otherwise it is numeric (NaN is a float). -/
def inferDtype (vs : List CVal) : Dtype :=
  if vs.any CVal.isStr then .object else .numeric

/-- `df.select_dtypes(include=["float64", "int64"]).columns`. -/
def selectNumeric (df : CTable) : List String :=
  (df.filter (fun c => c.dtype == Dtype.numeric)).map (fun c => c.name)

/-- `df.select_dtypes(include=["object"]).columns`. -/
def selectObject (df : CTable) : List String :=
  (df.filter (fun c => c.dtype == Dtype.object)).map (fun c => c.name)

/-- The observed (non-missing) values of a column. -/
def nonNA (vs : List CVal) : List CVal :=
  vs.filter (fun v => !v.isNA)

/-- Mean of the observed values; `none` when there is no observed value or
some observed value is not numeric (sklearn rejects both). -/
def meanOf (vs : List CVal) : Option ℚ :=
  match (nonNA vs).mapM (fun v => match v with | .num q => some q | _ => none) with
  | none => none
  | some [] => none
  | some l => some (l.sum / l.length)

/-- Median of the observed values, with the same failure cases as the
mean; for an even count, the average of the two middle values. -/
def medianOf (vs : List CVal) : Option ℚ :=
  match (nonNA vs).mapM (fun v => match v with | .num q => some q | _ => none) with
  | none => none
  | some [] => none
  | some l =>
    let s := l.mergeSort (fun a b => decide (a ≤ b))
    if l.length % 2 = 1 then some (s.getD (l.length / 2) 0)
    else some ((s.getD (l.length / 2 - 1) 0 + s.getD (l.length / 2) 0) / 2)

/-- Lexicographic comparison of character lists (code-point order). -/
def charListLeB : List Char → List Char → Bool
  | [], _ => true
  | _ :: _, [] => false
  | a :: as, b :: bs =>
    if a.toNat < b.toNat then true
    else if b.toNat < a.toNat then false
    else charListLeB as bs

/-- Tie-break order used by sklearn most_frequent (smallest value wins);
strings are compared lexicographically. -/
def cvalLeB : CVal → CVal → Bool
  | .num a, .num b => decide (a ≤ b)
  | .str a, .str b => charListLeB a.data b.data
  | .num _, .str _ => true
  | .str _, .num _ => false
  | .na, _ => true
  | _, .na => false

/-- Most frequent element of a list, smallest first on ties; `none` on an
empty list. -/
def modeAux (l : List CVal) : Option CVal :=
  match l with
  | [] => none
  | x :: xs =>
    some ((x :: xs).foldl (fun acc v =>
      if l.count v > l.count acc ∨ (l.count v = l.count acc ∧ cvalLeB v acc) then v
      else acc) x)

/-- Most frequent observed value of a column; `none` when every value is
missing (sklearn then drops the column). -/
def modeOf (vs : List CVal) : Option CVal :=
  modeAux (nonNA vs)

/-- `SimpleImputer(strategy=...).fit_transform` on a single column:
replace every missing value with the strategy's fill value, or fail. -/
def imputeColumn (strategy : String) (vs : List CVal) : Except String (List CVal) :=
  if strategy = "mean" then
    match meanOf vs with
    | none => .error "mean imputation failed"
    | some m => .ok (vs.map (fun v => if v.isNA then CVal.num m else v))
  else if strategy = "median" then
    match medianOf vs with
    | none => .error "median imputation failed"
    | some m => .ok (vs.map (fun v => if v.isNA then CVal.num m else v))
  else if strategy = "most_frequent" then
    match modeOf vs with
    | none => .error "most_frequent imputation failed"
    | some m => .ok (vs.map (fun v => if v.isNA then m else v))
  else .error "unsupported imputation strategy"

/-- Column-by-column traversal of the frame assignment
`df[names] = imputer.fit_transform(df[names])`: impute the listed
columns, keep the rest, failing as soon as one imputation fails. -/
def imputeCols (strategy : String) (names : List String) : CTable → Except String CTable
  | [] => .ok []
  | c :: rest => do
    let c' ← if names.contains c.name then
        (imputeColumn strategy c.values).map (fun vs => ⟨c.name, c.dtype, vs⟩)
      else .ok c
    let rest' ← imputeCols strategy names rest
    .ok (c' :: rest')

/-- The full frame assignment: fails when the selection is empty (sklearn
requires at least one feature) or when a listed name is absent (pandas
`KeyError`), otherwise imputes the listed columns. -/
def imputeSel (strategy : String) (names : List String) (df : CTable) :
    Except String CTable :=
  if names.isEmpty then .error "at least one feature is required"
  else if !(names.all (fun n => df.any (fun c => c.name == n))) then .error "KeyError"
  else imputeCols strategy names df

/-- One special transformation (sets.py line 203):
`df[col] = df[col].apply(lambda x: func(x) if pd.notna(x) else np.nan)`,
with the column dtype re-inferred from the assigned values.  Reading a
missing column raises `KeyError`. -/
def applyTransformStep (col : String) (f : CVal → CVal) (df : CTable) :
    Except String CTable :=
  if df.any (fun c => c.name == col) then
    .ok (df.map (fun c =>
      if c.name == col then
        let vs := c.values.map (fun v => if v.isNA then CVal.na else f v)
        ⟨c.name, inferDtype vs, vs⟩
      else c))
  else .error "KeyError"

/-- Run a sequence of in-place frame updates; on an error the frame keeps
the state reached before the failing statement. -/
def runMut (steps : List (CTable → Except String CTable)) (df : CTable) :
    CTable × Option String :=
  match steps with
  | [] => (df, none)
  | s :: rest =>
    match s df with
    | .ok d => runMut rest d
    | .error e => (df, some e)

/-- The statements of `data_cleaning` (sets.py lines 186-212) in order:
numeric imputation (defaulting to the numeric columns of the current
frame), categorical imputation (defaulting to the object columns of the
current frame), the special per-column transforms, then re-imputation of
the numeric and object columns re-selected from the transformed frame. -/
def data_cleaning_steps (num_columns cat_columns : Option (List String))
    (num_impute_strategy cat_impute_strategy : String)
    (special : List (String × (CVal → CVal))) :
    List (CTable → Except String CTable) :=
  (fun df => imputeSel num_impute_strategy (num_columns.getD (selectNumeric df)) df) ::
  (fun df => imputeSel cat_impute_strategy (cat_columns.getD (selectObject df)) df) ::
  (special.map (fun p df => applyTransformStep p.1 p.2 df) ++
   [fun df => imputeSel num_impute_strategy (selectNumeric df) df,
    fun df => imputeSel cat_impute_strategy (selectObject df) df])

/-- `data_cleaning` (sets.py lines 156-212).  First component: the
caller's frame after the call (the function mutates it in place and
returns the same object, so on a run without error this is also the
returned cleaned frame).  Second component: the raised error, if any. -/
def data_cleaning (df : CTable) (num_columns cat_columns : Option (List String))
    (num_impute_strategy cat_impute_strategy : String)
    (special : List (String × (CVal → CVal))) : CTable × Option String :=
  runMut (data_cleaning_steps num_columns cat_columns
    num_impute_strategy cat_impute_strategy special) df

/-- Every numeric-dtype and object-dtype column of the frame is free of
missing values. -/
def cleanNumCat (df : CTable) : Prop :=
  ∀ c ∈ df, (c.dtype = Dtype.numeric ∨ c.dtype = Dtype.object) →
    c.values.all (fun v => !v.isNA) = true

instance (df : CTable) : Decidable (cleanNumCat df) := List.decidableBAll _ df

/-- Every numeric-dtype and object-dtype column of the frame contains at
least one observed (non-missing) value. -/
def eachColObserved (df : CTable) : Prop :=
  ∀ c ∈ df, (c.dtype = Dtype.numeric ∨ c.dtype = Dtype.object) →
    c.values.any (fun v => !v.isNA) = true

instance (df : CTable) : Decidable (eachColObserved df) := List.decidableBAll _ df

/-! ## Helper lemmas -/

theorem pyIndex_zero (n : Nat) : pyIndex n 0 = 0 := by
  simp [pyIndex]

theorem pyIndex_natCast (n : Nat) : pyIndex n (n : Int) = n := by
  simp [pyIndex]

theorem pyIndex_neg (n k : Nat) (hk : 1 ≤ k) : pyIndex n (-(k : Int)) = n - k := by
  unfold pyIndex
  rw [if_pos (by omega)]
  omega

theorem take_mid_drop (l : List α) (a b : Nat) (h1 : a ≤ b) :
    l.take a ++ ((l.drop a).take (b - a) ++ l.drop b) = l := by
  rw [List.take_drop]
  have hab : a + (b - a) = b := by omega
  rw [hab]
  calc l.take a ++ ((l.take b).drop a ++ l.drop b)
      = (l.take a ++ (l.take b).drop a) ++ l.drop b := by rw [List.append_assoc]
    _ = ((l.take b).take a ++ (l.take b).drop a) ++ l.drop b := by
        rw [List.take_take, min_eq_left h1]
    _ = l.take b ++ l.drop b := by rw [List.take_append_drop]
    _ = l := List.take_append_drop b l

/-- The three positional slices taken by the splitter concatenate, in
order, to the whole column. -/
theorem pySlice_tri (v : List α) (c : Nat) (hc : c = v.length / 5) :
    pySlice 0 (-((c : Int) * 2)) v ++
      (pySlice (-((c : Int) * 2)) (-(c : Int)) v ++
       pySlice (-(c : Int)) (v.length : Int) v) = v := by
  rcases Nat.eq_zero_or_pos c with h0 | hpos
  · subst h0
    have h1 : pySlice (0 : Int) (0 : Int) v = [] := by
      simp [pySlice, pyIndex_zero]
    have h2 : pySlice (0 : Int) (v.length : Int) v = v := by
      simp [pySlice, pyIndex_zero, pyIndex_natCast]
    simp only [Nat.cast_zero, zero_mul, neg_zero, h1, h2, List.nil_append]
  · have h5 : c * 5 ≤ v.length := by
      rw [hc]; exact Nat.div_mul_le_self v.length 5
    have ha : pyIndex v.length (-((c : Int) * 2)) = v.length - 2 * c := by
      unfold pyIndex
      rw [if_pos (by omega)]
      omega
    have hb : pyIndex v.length (-(c : Int)) = v.length - c := pyIndex_neg _ _ hpos
    have hn : pyIndex v.length (v.length : Int) = v.length := pyIndex_natCast _
    simp only [pySlice, pyIndex_zero, ha, hb, hn, Nat.sub_zero, List.drop_zero]
    have h3 : (v.drop (v.length - c)).take (v.length - (v.length - c)) = v.drop (v.length - c) := by
      apply List.take_of_length_le
      rw [List.length_drop]
    rw [h3]
    exact take_mid_drop v (v.length - 2 * c) (v.length - c) (by omega)

theorem pop_target_eq {df fe : Table α} {target_col : String} {tg : List α}
    (h : pop_target df target_col = some (fe, tg)) :
    fe.nrows = df.nrows ∧
    fe.cols = df.cols.filter (fun q => !(q.1 == target_col)) ∧
    (df.cols.find? (fun p => p.1 == target_col)).map (fun p => p.2) = some tg := by
  unfold pop_target at h
  cases hf : df.cols.find? (fun p => p.1 == target_col) with
  | none => rw [hf] at h; exact absurd h (by simp)
  | some p =>
    rw [hf] at h
    simp only [Option.some.injEq, Prod.mk.injEq] at h
    obtain ⟨h1, h2⟩ := h
    refine ⟨?_, ?_, ?_⟩
    · rw [← h1]
    · rw [← h1]
    · simp [h2]

theorem WF_pop {df fe : Table α} {target_col : String} {tg : List α}
    (wf : df.WF) (h : pop_target df target_col = some (fe, tg)) : fe.WF := by
  obtain ⟨hn, hcols, -⟩ := pop_target_eq h
  intro p hp
  rw [hcols] at hp
  rw [hn]
  exact wf p (List.mem_of_mem_filter hp)

theorem sliceTable_eq_rowRange (t : Table α) (wf : t.WF) (s e : Int) :
    sliceTable s e t = rowRange (pyIndex t.nrows s) (pyIndex t.nrows e) t := by
  unfold sliceTable rowRange
  congr 1
  apply List.map_congr_left
  intro p hp
  unfold pySlice
  rw [wf p hp]

theorem zipWith_cols (f g : List α → List α) (l : List (String × List α)) :
    List.zipWith (fun p q => (p.1, p.2 ++ q.2))
      (l.map (fun p => (p.1, f p.2))) (l.map (fun p => (p.1, g p.2))) =
    l.map (fun p => (p.1, f p.2 ++ g p.2)) := by
  induction l with
  | nil => rfl
  | cons h t ih => simp only [List.map_cons, List.zipWith_cons_cons, ih]

theorem map_pair_id (l : List (String × List α)) :
    l.map (fun p => (p.1, p.2)) = l := by
  induction l with
  | nil => rfl
  | cons h t ih => simp [ih]

/-- Vertical concatenation of the three feature slices gives back the
feature frame, for a well-formed frame of any row count. -/
theorem vertConcat_slices (fe : Table α) (wf : fe.WF) :
    vertConcat (sliceTable 0 (-(((fe.nrows / 5 : Nat) : Int) * 2)) fe)
      (vertConcat
        (sliceTable (-(((fe.nrows / 5 : Nat) : Int) * 2)) (-((fe.nrows / 5 : Nat) : Int)) fe)
        (sliceTable (-((fe.nrows / 5 : Nat) : Int)) (fe.nrows : Int) fe)) = fe := by
  unfold vertConcat sliceTable
  simp only [zipWith_cols]
  rw [zipWith_cols (pySlice 0 (-(((fe.nrows / 5 : Nat) : Int) * 2)))
    (fun v => pySlice (-(((fe.nrows / 5 : Nat) : Int) * 2)) (-((fe.nrows / 5 : Nat) : Int)) v ++
      pySlice (-((fe.nrows / 5 : Nat) : Int)) (fe.nrows : Int) v)]
  have hcols : fe.cols.map (fun p =>
      (p.1, pySlice 0 (-(((fe.nrows / 5 : Nat) : Int) * 2)) p.2 ++
        (pySlice (-(((fe.nrows / 5 : Nat) : Int) * 2)) (-((fe.nrows / 5 : Nat) : Int)) p.2 ++
         pySlice (-((fe.nrows / 5 : Nat) : Int)) (fe.nrows : Int) p.2))) = fe.cols := by
    refine Eq.trans ?_ (map_pair_id fe.cols)
    apply List.map_congr_left
    intro p hp
    have hlen : p.2.length = fe.nrows := wf p hp
    have htri := pySlice_tri p.2 (fe.nrows / 5) (by rw [hlen])
    rw [hlen] at htri
    rw [htri]
  have hnr : pyIndex fe.nrows (-(((fe.nrows / 5 : Nat) : Int) * 2)) - pyIndex fe.nrows 0 +
      (pyIndex fe.nrows (-((fe.nrows / 5 : Nat) : Int)) -
        pyIndex fe.nrows (-(((fe.nrows / 5 : Nat) : Int) * 2)) +
       (pyIndex fe.nrows (fe.nrows : Int) -
        pyIndex fe.nrows (-((fe.nrows / 5 : Nat) : Int)))) = fe.nrows := by
    rcases Nat.eq_zero_or_pos (fe.nrows / 5) with h0 | hpos
    · rw [h0]
      simp [pyIndex_zero, pyIndex_natCast]
    · have h5 : fe.nrows / 5 * 5 ≤ fe.nrows := Nat.div_mul_le_self _ 5
      have ha : pyIndex fe.nrows (-(((fe.nrows / 5 : Nat) : Int) * 2)) =
          fe.nrows - 2 * (fe.nrows / 5) := by
        unfold pyIndex
        rw [if_pos (by omega)]
        omega
      rw [ha, pyIndex_neg _ _ hpos, pyIndex_zero, pyIndex_natCast]
      omega
  rw [hcols, hnr]

theorem pop_target_tg_length {df fe : Table α} {target_col : String} {tg : List α}
    (wf : df.WF) (h : pop_target df target_col = some (fe, tg)) :
    tg.length = fe.nrows := by
  obtain ⟨hn, -, hfind⟩ := pop_target_eq h
  cases hf : df.cols.find? (fun p => p.1 == target_col) with
  | none => rw [hf] at hfind; exact absurd hfind (by simp)
  | some p =>
    rw [hf] at hfind
    simp only [Option.map_some', Option.some.injEq] at hfind
    rw [hn, ← hfind]
    exact wf p (List.mem_of_find?_eq_some hf)

theorem split_sets_by_time_eq {df fe : Table α} {target_col : String} {tg : List α}
    (test_ratio : ℚ) (hpop : pop_target df target_col = some (fe, tg)) :
    split_sets_by_time df target_col test_ratio =
      some [SetPart.X (subset_x_y tg fe 0 (-(((fe.nrows / 5 : Nat) : Int) * 2))).1,
            SetPart.y (subset_x_y tg fe 0 (-(((fe.nrows / 5 : Nat) : Int) * 2))).2,
            SetPart.X (subset_x_y tg fe (-(((fe.nrows / 5 : Nat) : Int) * 2))
              (-((fe.nrows / 5 : Nat) : Int))).1,
            SetPart.y (subset_x_y tg fe (-(((fe.nrows / 5 : Nat) : Int) * 2))
              (-((fe.nrows / 5 : Nat) : Int))).2,
            SetPart.X (subset_x_y tg fe (-((fe.nrows / 5 : Nat) : Int)) (fe.nrows : Int)).1] := by
  unfold split_sets_by_time
  rw [hpop]

theorem pySlice_as_take_drop (v : List α) (s e : Int) :
    pySlice s e v =
      (v.drop (pyIndex v.length s)).take (pyIndex v.length e - pyIndex v.length s) := rfl

theorem pySlice_zero_zero (v : List α) : pySlice 0 0 v = [] := by
  simp [pySlice, pyIndex_zero]

theorem sliceTable_zero_zero (t : Table α) : sliceTable 0 0 t = emptyRows t := by
  unfold sliceTable emptyRows
  simp [pySlice_zero_zero, pyIndex_zero]

theorem sliceTable_full (t : Table α) (wf : t.WF) : sliceTable 0 (t.nrows : Int) t = t := by
  unfold sliceTable
  have hcols : t.cols.map (fun p => (p.1, pySlice 0 (t.nrows : Int) p.2)) = t.cols := by
    refine Eq.trans ?_ (map_pair_id t.cols)
    apply List.map_congr_left
    intro p hp
    have hlen : p.2.length = t.nrows := wf p hp
    rw [pySlice_as_take_drop, hlen, pyIndex_zero, pyIndex_natCast, List.drop_zero,
      Nat.sub_zero, ← hlen, List.take_length]
  rw [hcols, pyIndex_zero, pyIndex_natCast, Nat.sub_zero]

/-! ## Claim theorems -/

/-- C1 (amended).  For every well-formed table with the target column
present, the three row ranges produced by `split_sets_by_time` are
contiguous, non-overlapping and concatenate in order to exactly the
original rows of the feature frame (and of the target column), with no
row duplicated or dropped — for every row count N.  The ranges are the
claimed `[0, N - 2*cutoff)`, `[N - 2*cutoff, N - cutoff)`,
`[N - cutoff, N)` with `cutoff = floor(N / 5)` whenever `5 ≤ N`; for
`N < 5` the cutoff is 0 and the produced train and validation ranges are
empty instead (see the counterexample `split_range_description_cex`). -/
theorem split_sets_by_time_partition (df : Table α) (target_col : String)
    (test_ratio : ℚ) (fe : Table α) (tg : List α)
    (wf : df.WF) (hpop : pop_target df target_col = some (fe, tg)) :
    split_sets_by_time df target_col test_ratio =
      some [SetPart.X (sliceTable 0 (-(((fe.nrows / 5 : Nat) : Int) * 2)) fe),
            SetPart.y (pySlice 0 (-(((fe.nrows / 5 : Nat) : Int) * 2)) tg),
            SetPart.X (sliceTable (-(((fe.nrows / 5 : Nat) : Int) * 2))
              (-((fe.nrows / 5 : Nat) : Int)) fe),
            SetPart.y (pySlice (-(((fe.nrows / 5 : Nat) : Int) * 2))
              (-((fe.nrows / 5 : Nat) : Int)) tg),
            SetPart.X (sliceTable (-((fe.nrows / 5 : Nat) : Int)) (fe.nrows : Int) fe)] ∧
    vertConcat (sliceTable 0 (-(((fe.nrows / 5 : Nat) : Int) * 2)) fe)
      (vertConcat (sliceTable (-(((fe.nrows / 5 : Nat) : Int) * 2))
          (-((fe.nrows / 5 : Nat) : Int)) fe)
        (sliceTable (-((fe.nrows / 5 : Nat) : Int)) (fe.nrows : Int) fe)) = fe ∧
    pySlice 0 (-(((fe.nrows / 5 : Nat) : Int) * 2)) tg ++
      (pySlice (-(((fe.nrows / 5 : Nat) : Int) * 2)) (-((fe.nrows / 5 : Nat) : Int)) tg ++
       pySlice (-((fe.nrows / 5 : Nat) : Int)) (fe.nrows : Int) tg) = tg ∧
    (5 ≤ fe.nrows →
      sliceTable 0 (-(((fe.nrows / 5 : Nat) : Int) * 2)) fe =
        rowRange 0 (fe.nrows - 2 * (fe.nrows / 5)) fe ∧
      sliceTable (-(((fe.nrows / 5 : Nat) : Int) * 2)) (-((fe.nrows / 5 : Nat) : Int)) fe =
        rowRange (fe.nrows - 2 * (fe.nrows / 5)) (fe.nrows - fe.nrows / 5) fe ∧
      sliceTable (-((fe.nrows / 5 : Nat) : Int)) (fe.nrows : Int) fe =
        rowRange (fe.nrows - fe.nrows / 5) fe.nrows fe) := by
  have wfFe : fe.WF := WF_pop wf hpop
  have hlen_tg : tg.length = fe.nrows := pop_target_tg_length wf hpop
  refine ⟨split_sets_by_time_eq test_ratio hpop, vertConcat_slices fe wfFe, ?_, ?_⟩
  · have htri := pySlice_tri tg (fe.nrows / 5) (by rw [hlen_tg])
    rw [hlen_tg] at htri
    exact htri
  · intro h5
    have hpos : 1 ≤ fe.nrows / 5 := (Nat.one_le_div_iff (by norm_num)).mpr h5
    have h5le : fe.nrows / 5 * 5 ≤ fe.nrows := Nat.div_mul_le_self _ 5
    have ha : pyIndex fe.nrows (-(((fe.nrows / 5 : Nat) : Int) * 2)) =
        fe.nrows - 2 * (fe.nrows / 5) := by
      unfold pyIndex
      rw [if_pos (by omega)]
      omega
    refine ⟨?_, ?_, ?_⟩
    · rw [sliceTable_eq_rowRange fe wfFe, pyIndex_zero, ha]
    · rw [sliceTable_eq_rowRange fe wfFe, ha, pyIndex_neg _ _ hpos]
    · rw [sliceTable_eq_rowRange fe wfFe, pyIndex_neg _ _ hpos, pyIndex_natCast]

/-- C1 (counterexample to the claim as stated).  A one-row table: N = 1,
cutoff = 0, so the claim describes the train range as rows
`[0, N - 2*cutoff) = [0, 1)` — the whole table — but the code slices
`features[0:-0]`, which is `[0:0]`, the empty range.  The produced train
feature frame is therefore not the claimed row range (the concatenation
property itself still holds, all rows landing in the test range). -/
theorem split_range_description_cex :
    split_sets_by_time (⟨1, [("a", [(7 : ℚ)]), ("t", [3])]⟩ : Table ℚ) "t" (1 / 5) =
      some [SetPart.X ⟨0, [("a", [])]⟩, SetPart.y [],
            SetPart.X ⟨0, [("a", [])]⟩, SetPart.y [],
            SetPart.X ⟨1, [("a", [7])]⟩] ∧
    (⟨0, [("a", [])]⟩ : Table ℚ) ≠
      rowRange 0 (1 - 2 * (1 / 5 : Nat)) (⟨1, [("a", [(7 : ℚ)])]⟩ : Table ℚ) := by
  refine ⟨by decide, by decide⟩

/-- C1 witness: the partition theorem applied to a concrete well-formed
5-row table. -/
theorem split_sets_by_time_partition_witness :
    (⟨5, [("a", [0, 1, 2, 3, 4]), ("t", [9, 9, 9, 9, 9])]⟩ : Table ℚ).WF ∧
    pop_target (⟨5, [("a", [0, 1, 2, 3, 4]), ("t", [9, 9, 9, 9, 9])]⟩ : Table ℚ) "t" =
      some (⟨5, [("a", [0, 1, 2, 3, 4])]⟩, [9, 9, 9, 9, 9]) ∧
    vertConcat
      (sliceTable 0
        (-((((⟨5, [("a", [(0 : ℚ), 1, 2, 3, 4])]⟩ : Table ℚ).nrows / 5 : Nat) : Int) * 2))
        (⟨5, [("a", [0, 1, 2, 3, 4])]⟩ : Table ℚ))
      (vertConcat
        (sliceTable
          (-((((⟨5, [("a", [(0 : ℚ), 1, 2, 3, 4])]⟩ : Table ℚ).nrows / 5 : Nat) : Int) * 2))
          (-(((⟨5, [("a", [(0 : ℚ), 1, 2, 3, 4])]⟩ : Table ℚ).nrows / 5 : Nat) : Int))
          (⟨5, [("a", [0, 1, 2, 3, 4])]⟩ : Table ℚ))
        (sliceTable
          (-(((⟨5, [("a", [(0 : ℚ), 1, 2, 3, 4])]⟩ : Table ℚ).nrows / 5 : Nat) : Int))
          ((⟨5, [("a", [(0 : ℚ), 1, 2, 3, 4])]⟩ : Table ℚ).nrows : Int)
          (⟨5, [("a", [0, 1, 2, 3, 4])]⟩ : Table ℚ))) =
      (⟨5, [("a", [0, 1, 2, 3, 4])]⟩ : Table ℚ) := by
  refine ⟨by decide, by decide, ?_⟩
  exact (split_sets_by_time_partition
    (⟨5, [("a", [0, 1, 2, 3, 4]), ("t", [9, 9, 9, 9, 9])]⟩ : Table ℚ) "t" (1 / 5)
    (⟨5, [("a", [0, 1, 2, 3, 4])]⟩ : Table ℚ) [9, 9, 9, 9, 9]
    (by decide) (by decide)).2.1

/-- C2.  For every input table on which the target lookup succeeds,
`split_sets_by_time` returns exactly five values — train features, train
target, validation features, validation target, and test features.  The
test target, though computed at line 152, is omitted from the return
(line 154 ends in `X_test,`). -/
theorem split_sets_by_time_returns_five (df : Table α) (target_col : String)
    (test_ratio : ℚ) (fe : Table α) (tg : List α)
    (hpop : pop_target df target_col = some (fe, tg)) :
    split_sets_by_time df target_col test_ratio =
      some [SetPart.X (subset_x_y tg fe 0 (-(((fe.nrows / 5 : Nat) : Int) * 2))).1,
            SetPart.y (subset_x_y tg fe 0 (-(((fe.nrows / 5 : Nat) : Int) * 2))).2,
            SetPart.X (subset_x_y tg fe (-(((fe.nrows / 5 : Nat) : Int) * 2))
              (-((fe.nrows / 5 : Nat) : Int))).1,
            SetPart.y (subset_x_y tg fe (-(((fe.nrows / 5 : Nat) : Int) * 2))
              (-((fe.nrows / 5 : Nat) : Int))).2,
            SetPart.X (subset_x_y tg fe (-((fe.nrows / 5 : Nat) : Int)) (fe.nrows : Int)).1] ∧
    ([SetPart.X (subset_x_y tg fe 0 (-(((fe.nrows / 5 : Nat) : Int) * 2))).1,
      SetPart.y (subset_x_y tg fe 0 (-(((fe.nrows / 5 : Nat) : Int) * 2))).2,
      SetPart.X (subset_x_y tg fe (-(((fe.nrows / 5 : Nat) : Int) * 2))
        (-((fe.nrows / 5 : Nat) : Int))).1,
      SetPart.y (subset_x_y tg fe (-(((fe.nrows / 5 : Nat) : Int) * 2))
        (-((fe.nrows / 5 : Nat) : Int))).2,
      SetPart.X (subset_x_y tg fe (-((fe.nrows / 5 : Nat) : Int)) (fe.nrows : Int)).1] :
        List (SetPart α)).length = 5 :=
  ⟨split_sets_by_time_eq test_ratio hpop, rfl⟩

/-- C2 witness: a concrete two-row table; the returned list has the five
components, the test target `[5, 6]` not among them. -/
theorem split_sets_by_time_returns_five_witness :
    split_sets_by_time (⟨2, [("a", [1, 2]), ("t", [5, 6])]⟩ : Table ℚ) "t" (1 / 5) =
      some [SetPart.X ⟨0, [("a", [])]⟩, SetPart.y [],
            SetPart.X ⟨0, [("a", [])]⟩, SetPart.y [],
            SetPart.X ⟨2, [("a", [1, 2])]⟩] ∧
    ([SetPart.X ⟨0, [("a", [])]⟩, SetPart.y [],
      SetPart.X ⟨0, [("a", [])]⟩, SetPart.y [],
      SetPart.X ⟨2, [("a", [1, 2])]⟩] : List (SetPart ℚ)).length = 5 := by
  have h := split_sets_by_time_returns_five
    (⟨2, [("a", [1, 2]), ("t", [5, 6])]⟩ : Table ℚ) "t" (1 / 5)
    (⟨2, [("a", [1, 2])]⟩ : Table ℚ) [5, 6] (by decide)
  exact ⟨h.1.trans (by decide), rfl⟩

/-- C8.  The result of `split_sets_by_time` does not depend on the
`test_ratio` parameter: the parameter is never read, the cutoff always
being `int(len(df_copy) / 5)`.  Both sides reduce to the same body. -/
theorem split_sets_by_time_ignores_test_ratio (df : Table α) (target_col : String)
    (r1 r2 : ℚ) :
    split_sets_by_time df target_col r1 = split_sets_by_time df target_col r2 := rfl

/-- C9.  For every well-formed table with exactly 10 rows,
`split_sets_by_time` computes `cutoff = 2` and assigns rows 0-5 to the
training split, rows 6-7 to the validation split, and rows 8-9 to the
test split. -/
theorem split_sets_by_time_ten_rows (df : Table α) (target_col : String)
    (test_ratio : ℚ) (fe : Table α) (tg : List α) (wf : df.WF)
    (hpop : pop_target df target_col = some (fe, tg)) (h10 : df.nrows = 10) :
    fe.nrows / 5 = 2 ∧
    split_sets_by_time df target_col test_ratio =
      some [SetPart.X (rowRange 0 6 fe), SetPart.y (tg.take 6),
            SetPart.X (rowRange 6 8 fe), SetPart.y ((tg.drop 6).take 2),
            SetPart.X (rowRange 8 10 fe)] := by
  have wfFe : fe.WF := WF_pop wf hpop
  have hn : fe.nrows = 10 := (pop_target_eq hpop).1.trans h10
  have hlen : tg.length = 10 := (pop_target_tg_length wf hpop).trans hn
  have hcut : fe.nrows / 5 = 2 := by rw [hn]
  refine ⟨hcut, ?_⟩
  rw [split_sets_by_time_eq test_ratio hpop]
  have e1 : sliceTable 0 (-(((fe.nrows / 5 : Nat) : Int) * 2)) fe = rowRange 0 6 fe := by
    rw [sliceTable_eq_rowRange fe wfFe, hcut, hn, pyIndex_zero,
      (by decide : pyIndex 10 (-(((2 : Nat) : Int) * 2)) = 6)]
  have e2 : pySlice 0 (-(((fe.nrows / 5 : Nat) : Int) * 2)) tg = tg.take 6 := by
    rw [pySlice_as_take_drop, hcut, hlen, pyIndex_zero,
      (by decide : pyIndex 10 (-(((2 : Nat) : Int) * 2)) = 6), List.drop_zero]
  have e3 : sliceTable (-(((fe.nrows / 5 : Nat) : Int) * 2))
      (-((fe.nrows / 5 : Nat) : Int)) fe = rowRange 6 8 fe := by
    rw [sliceTable_eq_rowRange fe wfFe, hcut, hn,
      (by decide : pyIndex 10 (-(((2 : Nat) : Int) * 2)) = 6),
      (by decide : pyIndex 10 (-((2 : Nat) : Int)) = 8)]
  have e4 : pySlice (-(((fe.nrows / 5 : Nat) : Int) * 2))
      (-((fe.nrows / 5 : Nat) : Int)) tg = (tg.drop 6).take 2 := by
    rw [pySlice_as_take_drop, hcut, hlen,
      (by decide : pyIndex 10 (-(((2 : Nat) : Int) * 2)) = 6),
      (by decide : pyIndex 10 (-((2 : Nat) : Int)) = 8)]
  have e5 : sliceTable (-((fe.nrows / 5 : Nat) : Int)) (fe.nrows : Int) fe =
      rowRange 8 10 fe := by
    rw [sliceTable_eq_rowRange fe wfFe, hcut, hn,
      (by decide : pyIndex 10 (-((2 : Nat) : Int)) = 8), pyIndex_natCast]
  show some [SetPart.X (sliceTable 0 (-(((fe.nrows / 5 : Nat) : Int) * 2)) fe),
      SetPart.y (pySlice 0 (-(((fe.nrows / 5 : Nat) : Int) * 2)) tg),
      SetPart.X (sliceTable (-(((fe.nrows / 5 : Nat) : Int) * 2))
        (-((fe.nrows / 5 : Nat) : Int)) fe),
      SetPart.y (pySlice (-(((fe.nrows / 5 : Nat) : Int) * 2))
        (-((fe.nrows / 5 : Nat) : Int)) tg),
      SetPart.X (sliceTable (-((fe.nrows / 5 : Nat) : Int)) (fe.nrows : Int) fe)] = _
  rw [e1, e2, e3, e4, e5]

/-- C9 witness: the 10-row theorem applied to a concrete table whose
feature column is 0..9. -/
theorem split_sets_by_time_ten_rows_witness :
    (⟨10, [("a", [0, 1, 2, 3, 4, 5, 6, 7, 8, 9]), ("t", [0, 0, 0, 0, 0, 1, 1, 1, 1, 1])]⟩ :
      Table ℚ).WF ∧
    (⟨10, [("a", [(0 : ℚ), 1, 2, 3, 4, 5, 6, 7, 8, 9]),
      ("t", [0, 0, 0, 0, 0, 1, 1, 1, 1, 1])]⟩ : Table ℚ).nrows = 10 ∧
    split_sets_by_time (⟨10, [("a", [0, 1, 2, 3, 4, 5, 6, 7, 8, 9]),
        ("t", [0, 0, 0, 0, 0, 1, 1, 1, 1, 1])]⟩ : Table ℚ) "t" (1 / 5) =
      some [SetPart.X (rowRange 0 6 (⟨10, [("a", [0, 1, 2, 3, 4, 5, 6, 7, 8, 9])]⟩ : Table ℚ)),
            SetPart.y (([(0 : ℚ), 0, 0, 0, 0, 1, 1, 1, 1, 1]).take 6),
            SetPart.X (rowRange 6 8 (⟨10, [("a", [0, 1, 2, 3, 4, 5, 6, 7, 8, 9])]⟩ : Table ℚ)),
            SetPart.y ((([(0 : ℚ), 0, 0, 0, 0, 1, 1, 1, 1, 1]).drop 6).take 2),
            SetPart.X (rowRange 8 10 (⟨10, [("a", [0, 1, 2, 3, 4, 5, 6, 7, 8, 9])]⟩ : Table ℚ))] := by
  refine ⟨by decide, rfl, ?_⟩
  exact (split_sets_by_time_ten_rows
    (⟨10, [("a", [0, 1, 2, 3, 4, 5, 6, 7, 8, 9]),
      ("t", [0, 0, 0, 0, 0, 1, 1, 1, 1, 1])]⟩ : Table ℚ) "t" (1 / 5)
    (⟨10, [("a", [0, 1, 2, 3, 4, 5, 6, 7, 8, 9])]⟩ : Table ℚ)
    [0, 0, 0, 0, 0, 1, 1, 1, 1, 1] (by decide) (by decide) rfl).2

/-- C10.  For every well-formed table with fewer than 5 rows the cutoff is
0, so the slice bound `-cutoff*2` is `0`, the train and validation slices
`[0:0]` are empty, and the test slice `[-0:len]` is the whole table:
`split_sets_by_time` returns empty train and validation splits and a test
split containing all rows. -/
theorem split_sets_by_time_small_table (df : Table α) (target_col : String)
    (test_ratio : ℚ) (fe : Table α) (tg : List α) (wf : df.WF)
    (hpop : pop_target df target_col = some (fe, tg)) (hsmall : df.nrows < 5) :
    split_sets_by_time df target_col test_ratio =
      some [SetPart.X (emptyRows fe), SetPart.y [],
            SetPart.X (emptyRows fe), SetPart.y [],
            SetPart.X fe] := by
  have wfFe : fe.WF := WF_pop wf hpop
  have hn : fe.nrows = df.nrows := (pop_target_eq hpop).1
  have hcut : fe.nrows / 5 = 0 := Nat.div_eq_of_lt (by omega)
  rw [split_sets_by_time_eq test_ratio hpop]
  show some [SetPart.X (sliceTable 0 (-(((fe.nrows / 5 : Nat) : Int) * 2)) fe),
      SetPart.y (pySlice 0 (-(((fe.nrows / 5 : Nat) : Int) * 2)) tg),
      SetPart.X (sliceTable (-(((fe.nrows / 5 : Nat) : Int) * 2))
        (-((fe.nrows / 5 : Nat) : Int)) fe),
      SetPart.y (pySlice (-(((fe.nrows / 5 : Nat) : Int) * 2))
        (-((fe.nrows / 5 : Nat) : Int)) tg),
      SetPart.X (sliceTable (-((fe.nrows / 5 : Nat) : Int)) (fe.nrows : Int) fe)] = _
  rw [hcut]
  simp only [Nat.cast_zero, zero_mul, neg_zero]
  rw [sliceTable_zero_zero, pySlice_zero_zero, sliceTable_full fe wfFe]

/-- C10 witness: a concrete well-formed 3-row table. -/
theorem split_sets_by_time_small_table_witness :
    (⟨3, [("a", [1, 2, 3]), ("t", [7, 8, 9])]⟩ : Table ℚ).WF ∧
    (⟨3, [("a", [(1 : ℚ), 2, 3]), ("t", [7, 8, 9])]⟩ : Table ℚ).nrows < 5 ∧
    split_sets_by_time (⟨3, [("a", [1, 2, 3]), ("t", [7, 8, 9])]⟩ : Table ℚ) "t" (1 / 5) =
      some [SetPart.X (emptyRows (⟨3, [("a", [(1 : ℚ), 2, 3])]⟩ : Table ℚ)), SetPart.y [],
            SetPart.X (emptyRows (⟨3, [("a", [(1 : ℚ), 2, 3])]⟩ : Table ℚ)), SetPart.y [],
            SetPart.X (⟨3, [("a", [1, 2, 3])]⟩ : Table ℚ)] := by
  refine ⟨by decide, by decide, ?_⟩
  exact split_sets_by_time_small_table
    (⟨3, [("a", [1, 2, 3]), ("t", [7, 8, 9])]⟩ : Table ℚ) "t" (1 / 5)
    (⟨3, [("a", [1, 2, 3])]⟩ : Table ℚ) [7, 8, 9] (by decide) (by decide) (by decide)

theorem find?_filter_of_imp {β : Type} (l : List β) (p q : β → Bool)
    (h : ∀ x, p x = true → q x = true) : (l.filter q).find? p = l.find? p := by
  induction l with
  | nil => rfl
  | cons a t ih =>
    by_cases hq : q a = true
    · rw [List.filter_cons_of_pos hq]
      by_cases hp : p a = true
      · rw [List.find?_cons_of_pos _ hp, List.find?_cons_of_pos _ hp]
      · rw [List.find?_cons_of_neg _ (by simpa using hp),
          List.find?_cons_of_neg _ (by simpa using hp), ih]
    · rw [List.filter_cons_of_neg (by simpa using hq)]
      have hp : ¬ p a = true := fun hpa => hq (h a hpa)
      rw [List.find?_cons_of_neg _ (by simpa using hp), ih]

/-- C4.  For every table and target column present in it, `pop_target`
returns a pair whose first component keeps the row count and consists of
all original columns except the target (in their original order, values
untouched: looking up any other column gives the same result as in the
input), contains no column named like the target, and whose second
component is exactly the input column `T[c]`. -/
theorem pop_target_spec (df : Table α) (target_col : String) (fe : Table α) (tg : List α)
    (hpop : pop_target df target_col = some (fe, tg)) :
    fe.nrows = df.nrows ∧
    fe.cols = df.cols.filter (fun q => !(q.1 == target_col)) ∧
    getCol fe target_col = none ∧
    (∀ name : String, name ≠ target_col → getCol fe name = getCol df name) ∧
    getCol df target_col = some tg := by
  obtain ⟨hn, hcols, hfind⟩ := pop_target_eq hpop
  refine ⟨hn, hcols, ?_, ?_, hfind⟩
  · unfold getCol
    rw [hcols]
    have : (df.cols.filter (fun q => !(q.1 == target_col))).find?
        (fun p => p.1 == target_col) = none := by
      rw [List.find?_eq_none]
      intro x hx
      have := (List.mem_filter.mp hx).2
      simpa using this
    rw [this]
    rfl
  · intro name hname
    unfold getCol
    rw [hcols]
    rw [find?_filter_of_imp df.cols (fun p => p.1 == name) (fun q => !(q.1 == target_col))]
    intro x hx
    simp only [beq_iff_eq] at hx
    simp [hx, hname]

/-- C4 witness: a concrete three-column table, popping the middle
column. -/
theorem pop_target_spec_witness :
    pop_target (⟨2, [("a", [1, 2]), ("t", [5, 6]), ("b", [7, 8])]⟩ : Table ℚ) "t" =
      some (⟨2, [("a", [1, 2]), ("b", [7, 8])]⟩, [5, 6]) ∧
    (⟨2, [("a", [(1 : ℚ), 2]), ("b", [7, 8])]⟩ : Table ℚ).nrows =
      (⟨2, [("a", [(1 : ℚ), 2]), ("t", [5, 6]), ("b", [7, 8])]⟩ : Table ℚ).nrows ∧
    getCol (⟨2, [("a", [(1 : ℚ), 2]), ("b", [7, 8])]⟩ : Table ℚ) "t" = none ∧
    getCol (⟨2, [("a", [(1 : ℚ), 2]), ("b", [7, 8])]⟩ : Table ℚ) "b" =
      getCol (⟨2, [("a", [(1 : ℚ), 2]), ("t", [5, 6]), ("b", [7, 8])]⟩ : Table ℚ) "b" ∧
    getCol (⟨2, [("a", [(1 : ℚ), 2]), ("t", [5, 6]), ("b", [7, 8])]⟩ : Table ℚ) "t" =
      some [5, 6] := by
  have h := pop_target_spec (⟨2, [("a", [1, 2]), ("t", [5, 6]), ("b", [7, 8])]⟩ : Table ℚ)
    "t" (⟨2, [("a", [1, 2]), ("b", [7, 8])]⟩ : Table ℚ) [5, 6] (by decide)
  exact ⟨by decide, h.1, h.2.2.1, h.2.2.2.1 "b" (by decide), h.2.2.2.2⟩

theorem str_assoc (a b c : String) : (a ++ b) ++ c = a ++ (b ++ c) := by
  apply String.ext
  simp [String.data_append]

theorem append_ne (p : String) {a b : String} (h : a ≠ b) : p ++ a ≠ p ++ b := by
  intro hc
  apply h
  have hd := congrArg String.data hc
  simp only [String.data_append] at hd
  exact String.ext (List.append_cancel_left hd)

theorem writeOpt_ne (fs : FS α) (fname : String) (arr : Option (List α)) (k : String)
    (h : k ≠ fname ++ ".npy") : writeOpt fs fname arr k = fs k := by
  cases arr with
  | none => rfl
  | some a => simp [writeOpt, np_save, h]

theorem writeOpt_at_key (fs : FS α) (fname : String) (arr : Option (List α)) (k : String)
    (hk : k = fname ++ ".npy") (hfs : fs k = none) : writeOpt fs fname arr k = arr := by
  subst hk
  cases arr with
  | none => exact hfs
  | some a => simp [writeOpt, np_save]

/-- C3.  Save-then-load round trip: for every combination of present and
absent arrays and every directory that does not already contain any of the
six set files, `load_sets` after `save_sets` returns each saved array
unchanged and `None` for every slot that was not saved, in the order
train features, train target, val features, val target, test features,
test target. -/
theorem save_load_roundtrip (path : String) (fs : FS α)
    (X_train y_train X_val y_val X_test y_test : Option (List α))
    (h1 : fs (path ++ "X_train.npy") = none) (h2 : fs (path ++ "y_train.npy") = none)
    (h3 : fs (path ++ "X_val.npy") = none) (h4 : fs (path ++ "y_val.npy") = none)
    (h5 : fs (path ++ "X_test.npy") = none) (h6 : fs (path ++ "y_test.npy") = none) :
    load_sets path (save_sets X_train y_train X_val y_val X_test y_test path fs) =
      (X_train, y_train, X_val, y_val, X_test, y_test) := by
  have hkne : ∀ q r : String, r ≠ q ++ ".npy" → path ++ r ≠ (path ++ q) ++ ".npy" := by
    intro q r hqr
    rw [str_assoc]
    exact append_ne path hqr
  have hksp : ∀ q r : String, r = q ++ ".npy" → path ++ r = (path ++ q) ++ ".npy" := by
    intro q r hqr
    rw [hqr, str_assoc]
  simp only [load_sets, save_sets, Prod.mk.injEq]
  refine ⟨?_, ?_, ?_, ?_, ?_, ?_⟩
  · rw [writeOpt_ne _ _ _ _ (hkne "y_test" "X_train.npy" (by decide)),
      writeOpt_ne _ _ _ _ (hkne "y_val" "X_train.npy" (by decide)),
      writeOpt_ne _ _ _ _ (hkne "y_train" "X_train.npy" (by decide)),
      writeOpt_ne _ _ _ _ (hkne "X_test" "X_train.npy" (by decide)),
      writeOpt_ne _ _ _ _ (hkne "X_val" "X_train.npy" (by decide))]
    exact writeOpt_at_key _ _ _ _ (hksp "X_train" "X_train.npy" (by decide)) h1
  · have hfr : writeOpt (writeOpt (writeOpt fs (path ++ "X_train") X_train)
        (path ++ "X_val") X_val) (path ++ "X_test") X_test (path ++ "y_train.npy") = none := by
      rw [writeOpt_ne _ _ _ _ (hkne "X_test" "y_train.npy" (by decide)),
        writeOpt_ne _ _ _ _ (hkne "X_val" "y_train.npy" (by decide)),
        writeOpt_ne _ _ _ _ (hkne "X_train" "y_train.npy" (by decide))]
      exact h2
    rw [writeOpt_ne _ _ _ _ (hkne "y_test" "y_train.npy" (by decide)),
      writeOpt_ne _ _ _ _ (hkne "y_val" "y_train.npy" (by decide))]
    exact writeOpt_at_key _ _ _ _ (hksp "y_train" "y_train.npy" (by decide)) hfr
  · have hfr : writeOpt fs (path ++ "X_train") X_train (path ++ "X_val.npy") = none := by
      rw [writeOpt_ne _ _ _ _ (hkne "X_train" "X_val.npy" (by decide))]
      exact h3
    rw [writeOpt_ne _ _ _ _ (hkne "y_test" "X_val.npy" (by decide)),
      writeOpt_ne _ _ _ _ (hkne "y_val" "X_val.npy" (by decide)),
      writeOpt_ne _ _ _ _ (hkne "y_train" "X_val.npy" (by decide)),
      writeOpt_ne _ _ _ _ (hkne "X_test" "X_val.npy" (by decide))]
    exact writeOpt_at_key _ _ _ _ (hksp "X_val" "X_val.npy" (by decide)) hfr
  · have hfr : writeOpt (writeOpt (writeOpt (writeOpt fs (path ++ "X_train") X_train)
        (path ++ "X_val") X_val) (path ++ "X_test") X_test) (path ++ "y_train") y_train
        (path ++ "y_val.npy") = none := by
      rw [writeOpt_ne _ _ _ _ (hkne "y_train" "y_val.npy" (by decide)),
        writeOpt_ne _ _ _ _ (hkne "X_test" "y_val.npy" (by decide)),
        writeOpt_ne _ _ _ _ (hkne "X_val" "y_val.npy" (by decide)),
        writeOpt_ne _ _ _ _ (hkne "X_train" "y_val.npy" (by decide))]
      exact h4
    rw [writeOpt_ne _ _ _ _ (hkne "y_test" "y_val.npy" (by decide))]
    exact writeOpt_at_key _ _ _ _ (hksp "y_val" "y_val.npy" (by decide)) hfr
  · have hfr : writeOpt (writeOpt fs (path ++ "X_train") X_train) (path ++ "X_val") X_val
        (path ++ "X_test.npy") = none := by
      rw [writeOpt_ne _ _ _ _ (hkne "X_val" "X_test.npy" (by decide)),
        writeOpt_ne _ _ _ _ (hkne "X_train" "X_test.npy" (by decide))]
      exact h5
    rw [writeOpt_ne _ _ _ _ (hkne "y_test" "X_test.npy" (by decide)),
      writeOpt_ne _ _ _ _ (hkne "y_val" "X_test.npy" (by decide)),
      writeOpt_ne _ _ _ _ (hkne "y_train" "X_test.npy" (by decide))]
    exact writeOpt_at_key _ _ _ _ (hksp "X_test" "X_test.npy" (by decide)) hfr
  · have hfr : writeOpt (writeOpt (writeOpt (writeOpt (writeOpt fs (path ++ "X_train") X_train)
        (path ++ "X_val") X_val) (path ++ "X_test") X_test) (path ++ "y_train") y_train)
        (path ++ "y_val") y_val (path ++ "y_test.npy") = none := by
      rw [writeOpt_ne _ _ _ _ (hkne "y_val" "y_test.npy" (by decide)),
        writeOpt_ne _ _ _ _ (hkne "y_train" "y_test.npy" (by decide)),
        writeOpt_ne _ _ _ _ (hkne "X_test" "y_test.npy" (by decide)),
        writeOpt_ne _ _ _ _ (hkne "X_val" "y_test.npy" (by decide)),
        writeOpt_ne _ _ _ _ (hkne "X_train" "y_test.npy" (by decide))]
      exact h6
    exact writeOpt_at_key _ _ _ _ (hksp "y_test" "y_test.npy" (by decide)) hfr

/-- C3 witness: a concrete mixed combination (train features and target
saved, validation absent, test features saved, test target absent) on an
empty directory. -/
theorem save_load_roundtrip_witness :
    load_sets "d/" (save_sets (some [(1 : ℚ), 2]) (some [3]) none none (some [4, 5]) none
      "d/" (fun _ => none)) =
      (some [(1 : ℚ), 2], some [3], none, none, some [4, 5], none) :=
  save_load_roundtrip "d/" (fun _ => none) (some [1, 2]) (some [3]) none none (some [4, 5])
    none rfl rfl rfl rfl rfl rfl

/-- C5 (evaluation of the defect).  The claim — every plotting helper
raises, on an unrecognized kind, a message listing exactly the kinds it
supports, and never raises on a supported kind — contradicts the code:
`categorical_plot` raises on `kind = "countplot"` although its own error
message (and docstring) lists `countplot` among the supported types, and
`distribution_plot` renders `piechart` and `countplot` although its error
message omits both. -/
theorem plot_kind_message_mismatch :
    categorical_plot "col" none "countplot" none =
      PlotOutcome.raised (invalidKindMessage categorical_plot_message_kinds) ∧
    "countplot" ∈ categorical_plot_message_kinds ∧
    distribution_plot "col" "piechart" false = PlotOutcome.rendered ("Pie Chart of col") ∧
    distribution_plot "col" "countplot" false = PlotOutcome.rendered ("Countplot of col") ∧
    "piechart" ∉ distribution_plot_message_kinds ∧
    "countplot" ∉ distribution_plot_message_kinds ∧
    distribution_plot_message_kinds ≠ distribution_plot_supported ∧
    categorical_plot_message_kinds ≠ categorical_plot_supported := by
  refine ⟨rfl, by decide, rfl, rfl, by decide, by decide, by decide, by decide⟩

/-! ## Lemmas about the cleaner -/

theorem runMut_cons_ok {s : CTable → Except String CTable}
    {rest : List (CTable → Except String CTable)} {df out : CTable}
    (h : runMut (s :: rest) df = (out, none)) :
    ∃ d, s df = .ok d ∧ runMut rest d = (out, none) := by
  unfold runMut at h
  cases hs : s df with
  | ok d => rw [hs] at h; exact ⟨d, rfl, h⟩
  | error e => rw [hs] at h; exact absurd (congrArg Prod.snd h) (by simp)

theorem runMut_append_ok {xs : List (CTable → Except String CTable)}
    (ys : List (CTable → Except String CTable)) {df d : CTable}
    (h : runMut xs df = (d, none)) : runMut (xs ++ ys) df = runMut ys d := by
  induction xs generalizing df with
  | nil =>
    simp only [runMut, Prod.mk.injEq] at h
    rw [List.nil_append, h.1]
  | cons s rest ih =>
    unfold runMut at h
    rw [List.cons_append]
    show (match s df with
      | Except.ok d => runMut (rest ++ ys) d
      | Except.error e => (df, some e)) = runMut ys d
    cases hs : s df with
    | ok d2 =>
      rw [hs] at h
      exact ih h
    | error e =>
      rw [hs] at h
      exact absurd (congrArg Prod.snd h) (by simp)

theorem runMut_split_ok {xs : List (CTable → Except String CTable)}
    (ys : List (CTable → Except String CTable)) {df out : CTable}
    (h : runMut (xs ++ ys) df = (out, none)) :
    ∃ d, runMut xs df = (d, none) ∧ runMut ys d = (out, none) := by
  induction xs generalizing df with
  | nil => exact ⟨df, rfl, h⟩
  | cons s rest ih =>
    rw [List.cons_append] at h
    obtain ⟨d, hs, hrest⟩ := runMut_cons_ok h
    obtain ⟨d2, hxs, hys⟩ := ih hrest
    refine ⟨d2, ?_, hys⟩
    show (match s df with
      | Except.ok d => runMut rest d
      | Except.error e => (df, some e)) = (d2, none)
    rw [hs]
    exact hxs

theorem modeAux_mem {l : List CVal} {v : CVal} (h : modeAux l = some v) : v ∈ l := by
  cases l with
  | nil => exact absurd h (by simp [modeAux])
  | cons x xs =>
    simp only [modeAux, Option.some.injEq] at h
    subst h
    have hstep : ∀ (ys : List CVal) (acc : CVal), acc ∈ x :: xs →
        (∀ u ∈ ys, u ∈ x :: xs) →
        ys.foldl (fun acc v =>
          if (x :: xs).count v > (x :: xs).count acc ∨
            ((x :: xs).count v = (x :: xs).count acc ∧ cvalLeB v acc) then v
          else acc) acc ∈ x :: xs := by
      intro ys
      induction ys with
      | nil => intro acc hacc _; exact hacc
      | cons u ys ih =>
        intro acc hacc hys
        simp only [List.foldl_cons]
        apply ih
        · by_cases hc : (x :: xs).count u > (x :: xs).count acc ∨
            ((x :: xs).count u = (x :: xs).count acc ∧ cvalLeB u acc)
          · rw [if_pos hc]; exact hys u (List.mem_cons_self u ys)
          · rw [if_neg hc]; exact hacc
        · intro w hw; exact hys w (List.mem_cons_of_mem u hw)
    exact hstep (x :: xs) x (List.mem_cons_self x xs) (fun u hu => hu)

theorem imputeColumn_clean {strategy : String} {vs out : List CVal}
    (h : imputeColumn strategy vs = .ok out) :
    out.all (fun v => !v.isNA) = true := by
  unfold imputeColumn at h
  split_ifs at h
  · cases hm : meanOf vs with
    | none => rw [hm] at h; exact absurd h (by simp)
    | some m =>
      rw [hm] at h
      simp only [Except.ok.injEq] at h
      subst h
      rw [List.all_eq_true]
      intro v hv
      obtain ⟨w, -, hw⟩ := List.mem_map.mp hv
      by_cases hna : w.isNA = true
      · rw [← hw, if_pos hna]; rfl
      · rw [← hw, if_neg hna]; simpa using hna
  · cases hm : medianOf vs with
    | none => rw [hm] at h; exact absurd h (by simp)
    | some m =>
      rw [hm] at h
      simp only [Except.ok.injEq] at h
      subst h
      rw [List.all_eq_true]
      intro v hv
      obtain ⟨w, -, hw⟩ := List.mem_map.mp hv
      by_cases hna : w.isNA = true
      · rw [← hw, if_pos hna]; rfl
      · rw [← hw, if_neg hna]; simpa using hna
  · cases hm : modeOf vs with
    | none => rw [hm] at h; exact absurd h (by simp)
    | some m =>
      rw [hm] at h
      simp only [Except.ok.injEq] at h
      subst h
      have hmem : m ∈ nonNA vs := modeAux_mem hm
      have hmna : m.isNA = false := by
        have := (List.mem_filter.mp hmem).2
        simpa using this
      rw [List.all_eq_true]
      intro v hv
      obtain ⟨w, -, hw⟩ := List.mem_map.mp hv
      by_cases hna : w.isNA = true
      · rw [← hw, if_pos hna]; simp [hmna]
      · rw [← hw, if_neg hna]; simpa using hna

theorem imputeCols_ok_mem (strategy : String) (names : List String) :
    ∀ (df out : CTable), imputeCols strategy names df = .ok out →
    ∀ c' ∈ out, ∃ c ∈ df, c'.name = c.name ∧ c'.dtype = c.dtype ∧
      (names.contains c.name = true → c'.values.all (fun v => !v.isNA) = true) ∧
      (names.contains c.name = false → c' = c) := by
  intro df
  induction df with
  | nil =>
    intro out h c' hc'
    simp only [imputeCols, Except.ok.injEq] at h
    subst h
    exact absurd hc' (by simp)
  | cons c rest ih =>
    intro out h c' hc'
    unfold imputeCols at h
    by_cases hn : names.contains c.name = true
    · rw [if_pos hn] at h
      cases hi : imputeColumn strategy c.values with
      | error e => rw [hi] at h; exact absurd h (by simp [Except.bind, Except.map, Bind.bind])
      | ok vs =>
        rw [hi] at h
        cases hr : imputeCols strategy names rest with
        | error e =>
          rw [hr] at h
          exact absurd h (by simp [Except.bind, Except.map, Bind.bind])
        | ok rest' =>
          rw [hr] at h
          simp only [Except.map, Except.bind, Bind.bind, Except.ok.injEq] at h
          subst h
          rcases List.mem_cons.mp hc' with hc' | hc'
          · exact ⟨c, List.mem_cons_self c rest, by rw [hc'], by rw [hc'],
              fun _ => by rw [hc']; exact imputeColumn_clean hi,
              fun hf => absurd (hn.symm.trans hf) (by simp)⟩
          · obtain ⟨b, hb, hrel⟩ := ih rest' hr c' hc'
            exact ⟨b, List.mem_cons_of_mem c hb, hrel⟩
    · rw [if_neg hn] at h
      cases hr : imputeCols strategy names rest with
      | error e =>
        rw [hr] at h
        exact absurd h (by simp [Except.bind, Bind.bind])
      | ok rest' =>
        rw [hr] at h
        simp only [Except.bind, Bind.bind, Except.ok.injEq] at h
        subst h
        rcases List.mem_cons.mp hc' with hc' | hc'
        · exact ⟨c, List.mem_cons_self c rest, by rw [hc'], by rw [hc'],
            fun ht => absurd ht hn, fun _ => hc'⟩
        · obtain ⟨b, hb, hrel⟩ := ih rest' hr c' hc'
          exact ⟨b, List.mem_cons_of_mem c hb, hrel⟩

theorem imputeSel_ok {strat : String} {names : List String} {df out : CTable}
    (h : imputeSel strat names df = .ok out) : imputeCols strat names df = .ok out := by
  unfold imputeSel at h
  split_ifs at h
  exact h

theorem mem_selectNumeric {c : CCol} {df : CTable} (hc : c ∈ df)
    (hd : c.dtype = Dtype.numeric) : (selectNumeric df).contains c.name = true := by
  have hmem : c.name ∈ selectNumeric df :=
    List.mem_map_of_mem (fun x => x.name) (List.mem_filter.mpr ⟨hc, by simp [hd]⟩)
  exact List.elem_iff.mpr hmem

theorem mem_selectObject {c : CCol} {df : CTable} (hc : c ∈ df)
    (hd : c.dtype = Dtype.object) : (selectObject df).contains c.name = true := by
  have hmem : c.name ∈ selectObject df :=
    List.mem_map_of_mem (fun x => x.name) (List.mem_filter.mpr ⟨hc, by simp [hd]⟩)
  exact List.elem_iff.mpr hmem

/-- Any run of `data_cleaning` that raises no error ends with a frame in
which every numeric-dtype and object-dtype column is free of missing
values: the final re-imputation passes cover exactly those columns. -/
theorem data_cleaning_ok_clean (df : CTable) (num_columns cat_columns : Option (List String))
    (ns cs : String) (special : List (String × (CVal → CVal))) (out : CTable)
    (h : data_cleaning df num_columns cat_columns ns cs special = (out, none)) :
    cleanNumCat out := by
  unfold data_cleaning data_cleaning_steps at h
  obtain ⟨d1, hs1, h⟩ := runMut_cons_ok h
  obtain ⟨d2, hs2, h⟩ := runMut_cons_ok h
  obtain ⟨d3, hmid, h⟩ := runMut_split_ok _ h
  obtain ⟨d4, hs4, h⟩ := runMut_cons_ok h
  obtain ⟨d5, hs5, h⟩ := runMut_cons_ok h
  have hout : d5 = out := by
    have := congrArg Prod.fst h
    simpa [runMut] using this
  subst hout
  have h4 := imputeSel_ok hs4
  have h5 := imputeSel_ok hs5
  intro col hcol hdt
  obtain ⟨b, hb, hname5, hdt5, hclean5, huntouched5⟩ := imputeCols_ok_mem _ _ _ _ h5 col hcol
  rcases hdt with hnum | hobj
  · by_cases hc : (selectObject d4).contains b.name = true
    · exact hclean5 hc
    · have hcb : col = b := huntouched5 (by simpa using hc)
      have hbdt : b.dtype = Dtype.numeric := hdt5.symm.trans hnum
      obtain ⟨a, ha, hname4, hdt4, hclean4, huntouched4⟩ := imputeCols_ok_mem _ _ _ _ h4 b hb
      have hadt : a.dtype = Dtype.numeric := hdt4.symm.trans hbdt
      have hbclean : b.values.all (fun v => !v.isNA) = true :=
        hclean4 (mem_selectNumeric ha hadt)
      rw [hcb]
      exact hbclean
  · have hbdt : b.dtype = Dtype.object := hdt5.symm.trans hobj
    exact hclean5 (mem_selectObject hb hbdt)

/-- C7.  For every input frame whose numeric and categorical columns each
contain at least one observed value, any table returned by
`data_cleaning` (i.e. any run that raises no error) has zero missing
values in every numeric and every categorical column — including missing
values introduced by the custom per-column transforms, which the final
re-imputation passes (sets.py lines 206-210) fill again. -/
theorem data_cleaning_no_missing (df : CTable)
    (num_columns cat_columns : Option (List String))
    (num_impute_strategy cat_impute_strategy : String)
    (special : List (String × (CVal → CVal))) (out : CTable)
    (hobs : eachColObserved df)
    (h : data_cleaning df num_columns cat_columns num_impute_strategy cat_impute_strategy
      special = (out, none)) :
    cleanNumCat out :=
  data_cleaning_ok_clean df num_columns cat_columns num_impute_strategy cat_impute_strategy
    special out h

/-- C7 witness: a concrete frame with one missing numeric and one missing
categorical value, cleaned with the default strategies; the result is
fully imputed. -/
theorem data_cleaning_no_missing_witness :
    eachColObserved [⟨"x", Dtype.numeric, [CVal.num 1, CVal.num 3]⟩,
      ⟨"c", Dtype.object, [CVal.str "a", CVal.na]⟩] ∧
    data_cleaning [⟨"x", Dtype.numeric, [CVal.num 1, CVal.num 3]⟩,
        ⟨"c", Dtype.object, [CVal.str "a", CVal.na]⟩]
        none none "mean" "most_frequent" [] =
      ([⟨"x", Dtype.numeric, [CVal.num 1, CVal.num 3]⟩,
        ⟨"c", Dtype.object, [CVal.str "a", CVal.str "a"]⟩], none) ∧
    cleanNumCat [⟨"x", Dtype.numeric, [CVal.num 1, CVal.num 3]⟩,
      ⟨"c", Dtype.object, [CVal.str "a", CVal.str "a"]⟩] :=
  ⟨by decide, by decide,
    data_cleaning_no_missing
      [⟨"x", Dtype.numeric, [CVal.num 1, CVal.num 3]⟩,
        ⟨"c", Dtype.object, [CVal.str "a", CVal.na]⟩]
      none none "mean" "most_frequent" []
      [⟨"x", Dtype.numeric, [CVal.num 1, CVal.num 3]⟩,
        ⟨"c", Dtype.object, [CVal.str "a", CVal.str "a"]⟩]
      (by decide) (by decide)⟩

/-- C6 (amended).  `pop_target` (and the splitter built on it) copies the
frame and leaves the caller-supplied table unchanged, but `data_cleaning`
mutates the caller's frame in place: its assignments write into the
passed table, whose state after a successful call is the returned cleaned
frame — so whenever the input had any missing value in a numeric or
categorical column, the caller's table afterwards differs from the
input. -/
theorem mutation_effects :
    (∀ (α : Type) (df : Table α) (target_col : String),
      (pop_target_run df target_col).2 = df) ∧
    (∀ (df out : CTable) (num_columns cat_columns : Option (List String))
      (ns cs : String) (special : List (String × (CVal → CVal))),
      data_cleaning df num_columns cat_columns ns cs special = (out, none) →
      ¬ cleanNumCat df → out ≠ df) := by
  constructor
  · intro α df target_col
    rfl
  · intro df out nc cc ns cs sp h hnc heq
    exact hnc (heq ▸ data_cleaning_ok_clean df nc cc ns cs sp out h)

/-- C6 (counterexample to the claim as stated).  A successful
`data_cleaning` call on a frame with a missing numeric value: the
caller's frame after the call (equal to the returned frame, the function
having imputed in place) differs from the table that was passed in. -/
theorem data_cleaning_mutates_cex :
    data_cleaning [⟨"x", Dtype.numeric, [CVal.num 1, CVal.num 2]⟩,
        ⟨"c", Dtype.object, [CVal.str "b", CVal.na]⟩]
        none none "mean" "most_frequent" [] =
      ([⟨"x", Dtype.numeric, [CVal.num 1, CVal.num 2]⟩,
        ⟨"c", Dtype.object, [CVal.str "b", CVal.str "b"]⟩], none) ∧
    ([⟨"x", Dtype.numeric, [CVal.num 1, CVal.num 2]⟩,
      ⟨"c", Dtype.object, [CVal.str "b", CVal.str "b"]⟩] : CTable) ≠
      [⟨"x", Dtype.numeric, [CVal.num 1, CVal.num 2]⟩,
        ⟨"c", Dtype.object, [CVal.str "b", CVal.na]⟩] :=
  ⟨by decide, by decide⟩

/-- C6 witness: the amended theorem applied at concrete inputs — the
caller's frame is unchanged by `pop_target` and changed by a successful
`data_cleaning` run on an unclean frame. -/
theorem mutation_effects_witness :
    (pop_target_run (⟨1, [("a", [(1 : ℚ)]), ("t", [2])]⟩ : Table ℚ) "t").2 =
      (⟨1, [("a", [(1 : ℚ)]), ("t", [2])]⟩ : Table ℚ) ∧
    ([⟨"x", Dtype.numeric, [CVal.num 5, CVal.num 6]⟩,
      ⟨"c", Dtype.object, [CVal.str "u", CVal.str "u"]⟩] : CTable) ≠
      [⟨"x", Dtype.numeric, [CVal.num 5, CVal.num 6]⟩,
        ⟨"c", Dtype.object, [CVal.str "u", CVal.na]⟩] :=
  ⟨mutation_effects.1 ℚ (⟨1, [("a", [(1 : ℚ)]), ("t", [2])]⟩ : Table ℚ) "t",
    mutation_effects.2
      [⟨"x", Dtype.numeric, [CVal.num 5, CVal.num 6]⟩,
        ⟨"c", Dtype.object, [CVal.str "u", CVal.na]⟩]
      [⟨"x", Dtype.numeric, [CVal.num 5, CVal.num 6]⟩,
        ⟨"c", Dtype.object, [CVal.str "u", CVal.str "u"]⟩]
      none none "mean" "most_frequent" [] (by decide) (by decide)⟩

end GrpKrml
